import Mathlib

/-!
# Verification of the Personna persona-scoring pipeline

A shallow embedding, in Lean 4, of the persona-generation core of the
Personna demo application (backend persona service, persona store, and the
test-run routes that feed them), together with proofs and refutations of
the stated behavioural properties.

Modelling conventions:
* JavaScript numbers are modelled as rationals (`ℚ`); every arithmetic
  operation appearing in the modelled code (sums of small decimal literals,
  comparisons, `Math.min`/`Math.max`) is order- and value-exact here.
* JavaScript strings are modelled as Lean `String` / `List Char`; the
  sources only ever manipulate ASCII text, on which the modelled
  `toLowerCase`, `trim` and `length` agree with JavaScript.
* `Date` values and `Math.random` draws are passed in explicitly as
  parameters (a timestamp `ℚ` and an index `Fin 16`) so that the modelled
  functions are total and deterministic.
* JavaScript property reads on dynamic objects are modelled with `Option`
  fields: a read of an absent property yields `none` (JS `undefined`).
-/

/-! ## Basic character and string helpers (JS string primitives) -/

/-- The apostrophe character, by code point. -/
def apostropheChar : Char := Char.ofNat 39

/-- The double-quote character, by code point. -/
def dquoteChar : Char := Char.ofNat 34

/-- JS `String.prototype.toLowerCase` on the ASCII strings used here. -/
def lowerChars (l : List Char) : List Char := l.map Char.toLower

/-- JS `String.prototype.toLowerCase`, as a `String` function. -/
def lowerStr (s : String) : String := String.mk (lowerChars s.data)

/-- Is `needle` a prefix of `hay`?  (Char lists, decidable equality.) -/
def isPrefixCh : List Char → List Char → Bool
  | [], _ => true
  | _ :: _, [] => false
  | a :: as, b :: bs => a = b && isPrefixCh as bs

/-- JS `String.prototype.includes`: does `hay` contain `needle` as a
contiguous substring?  `hasSubstr hay [] = true`, as in JS. -/
def hasSubstr : List Char → List Char → Bool
  | hay, needle =>
    if isPrefixCh needle hay then true
    else
      match hay with
      | [] => false
      | _ :: t => hasSubstr t needle

/-- JS `String.prototype.trim`: drop whitespace from both ends. -/
def trimChars (l : List Char) : List Char :=
  ((l.dropWhile Char.isWhitespace).reverse.dropWhile Char.isWhitespace).reverse

/-- Sentence-delimiter test for the split regex `[.!?]+`. -/
def isSentenceDelim (c : Char) : Bool := c = '.' || c = '!' || c = '?'

/-- Single pass over the text: `inDelim` records whether the previous
character belonged to a delimiter run (so further delimiters extend the
same separator), `cur` is the current fragment in reverse. -/
def splitSentencesAux : Bool → List Char → List Char → List (List Char)
  | _, cur, [] => [cur.reverse]
  | inDelim, cur, c :: cs =>
    if isSentenceDelim c then
      if inDelim then splitSentencesAux true cur cs
      else cur.reverse :: splitSentencesAux true [] cs
    else
      splitSentencesAux false (c :: cur) cs

/-- JS `transcript.split(/[.!?]+/)` on the character list: each maximal
run of `.`/`!`/`?` is a single separator; an empty fragment appears at an
end when the text starts or ends with a delimiter, and `"".split` yields
`[""]`. -/
def splitSentences (l : List Char) : List (List Char) :=
  splitSentencesAux false [] l

/-- JS `sentence.replace(/^["']|["']$/g, "")`: strip at most one leading
and at most one trailing quote character. -/
def stripQuoteEdges (l : List Char) : List Char :=
  let l₁ := match l with
    | c :: rest => if c = dquoteChar || c = apostropheChar then rest else l
    | [] => l
  match l₁.getLast? with
  | some c => if c = dquoteChar || c = apostropheChar then l₁.dropLast else l₁
  | none => l₁

/-! ## Decimal rendering of the persona-id counter

`PersonaStore.create` assigns `this.nextId.toString()`.  We model the JS
number-to-decimal-string conversion on naturals and prove it injective,
which is what the id-uniqueness claims rest on. -/

/-- The decimal digit character for `d < 10`. -/
def decDigitChar (d : Nat) : Char := Char.ofNat (48 + d)

/-- Little-endian decimal digits of `n` (empty for `0`). -/
def decDigitsLE : Nat → List Nat
  | 0 => []
  | n + 1 => (n + 1) % 10 :: decDigitsLE ((n + 1) / 10)
decreasing_by exact Nat.div_lt_self (Nat.succ_pos n) (by norm_num)

/-- JS `Number.prototype.toString()` for a natural number. -/
def natToDecimalString (n : Nat) : String :=
  if n = 0 then "0" else String.mk ((decDigitsLE n).reverse.map decDigitChar)

/-- Reconstruct a natural from little-endian decimal digits. -/
def ofDecDigitsLE (ds : List Nat) : Nat := ds.foldr (fun d acc => d + 10 * acc) 0

theorem ofDecDigitsLE_decDigitsLE (n : Nat) : ofDecDigitsLE (decDigitsLE n) = n := by
  induction n using Nat.strong_induction_on with
  | _ n ih =>
    match n with
    | 0 => simp [decDigitsLE, ofDecDigitsLE]
    | m + 1 =>
      rw [decDigitsLE]
      show (m + 1) % 10 + 10 * ofDecDigitsLE (decDigitsLE ((m + 1) / 10)) = m + 1
      rw [ih ((m + 1) / 10) (Nat.div_lt_self (Nat.succ_pos m) (by norm_num))]
      exact Nat.mod_add_div (m + 1) 10

theorem decDigitsLE_lt_ten (n : Nat) : ∀ d ∈ decDigitsLE n, d < 10 := by
  induction n using Nat.strong_induction_on with
  | _ n ih =>
    match n with
    | 0 => intro d hd; simp [decDigitsLE] at hd
    | m + 1 =>
      intro d hd
      rw [decDigitsLE] at hd
      rcases List.mem_cons.1 hd with h | h
      · subst h; exact Nat.mod_lt _ (by norm_num)
      · exact ih ((m + 1) / 10) (Nat.div_lt_self (Nat.succ_pos m) (by norm_num)) d h

/-- Decimal digit character back to its value. -/
def decCharVal (c : Char) : Nat := c.toNat - 48

theorem decCharVal_decDigitChar : ∀ d < 10, decCharVal (decDigitChar d) = d := by decide

/-- Left inverse of `natToDecimalString`. -/
def decodeDecimalString (s : String) : Nat :=
  ofDecDigitsLE ((s.data.map decCharVal).reverse)

theorem decodeDecimalString_natToDecimalString (n : Nat) :
    decodeDecimalString (natToDecimalString n) = n := by
  have hmap : ∀ l : List Nat, (∀ d ∈ l, d < 10) →
      l.map (decCharVal ∘ decDigitChar) = l := by
    intro l hl
    induction l with
    | nil => rfl
    | cons a t ih =>
      have ha : decCharVal (decDigitChar a) = a :=
        decCharVal_decDigitChar a (hl a (by simp))
      simp only [List.map_cons, Function.comp_apply, ha, List.cons.injEq, true_and]
      exact ih fun d hd => hl d (by simp [hd])
  by_cases h : n = 0
  · subst h
    show ofDecDigitsLE ((("0".data).map decCharVal).reverse) = 0
    decide
  · rw [natToDecimalString, if_neg h]
    show ofDecDigitsLE ((((decDigitsLE n).reverse.map decDigitChar).map decCharVal).reverse) = n
    rw [List.map_map, List.map_reverse, List.reverse_reverse,
      hmap _ (decDigitsLE_lt_ten n), ofDecDigitsLE_decDigitsLE]

theorem natToDecimalString_injective : Function.Injective natToDecimalString :=
  Function.LeftInverse.injective decodeDecimalString_natToDecimalString

/-! ## Stable descending sort

`Array.prototype.sort` with comparator `(a, b) => key(b) - key(a)` is,
per the ECMAScript specification, a *stable* sort in descending key
order.  A stable sort's output is uniquely determined by that
specification, so we embed it as stable insertion sort: an element is
inserted after every already-placed element of greater-or-equal key
(earlier elements keep their position among equal keys). -/

/-- Insert `x` (which occurs *earlier* in the original list than every
element of `l`) into the sorted list `l`: `x` goes before the first
element of strictly smaller-or-equal... precisely, before the first `y`
with `key y ≤ key x`, hence before equal keys, preserving stability. -/
def insertDesc (key : α → ℚ) (x : α) : List α → List α
  | [] => [x]
  | y :: ys => if key y > key x then y :: insertDesc key x ys else x :: y :: ys

/-- Stable sort, descending by `key`. -/
def sortByDesc (key : α → ℚ) : List α → List α
  | [] => []
  | x :: xs => insertDesc key x (sortByDesc key xs)

/-- The first maximum of a list by `key`: the element with the greatest
key, earliest in list order among ties. -/
def argmaxFirst (key : α → ℚ) : List α → Option α
  | [] => none
  | x :: xs =>
    match argmaxFirst key xs with
    | none => some x
    | some y => if key x ≥ key y then some x else some y

theorem insertDesc_perm (key : α → ℚ) (x : α) (l : List α) :
    List.Perm (insertDesc key x l) (x :: l) := by
  induction l with
  | nil => rfl
  | cons y ys ih =>
    rw [insertDesc]
    by_cases h : key y > key x
    · rw [if_pos h]
      exact (List.Perm.cons y ih).trans (List.Perm.swap x y ys)
    · rw [if_neg h]

theorem sortByDesc_perm (key : α → ℚ) (l : List α) :
    List.Perm (sortByDesc key l) l := by
  induction l with
  | nil => rfl
  | cons x xs ih =>
    exact (insertDesc_perm key x (sortByDesc key xs)).trans (List.Perm.cons x ih)

theorem insertDesc_pairwise (key : α → ℚ) (x : α) (l : List α)
    (hl : l.Pairwise (fun a b => key b ≤ key a)) :
    (insertDesc key x l).Pairwise (fun a b => key b ≤ key a) := by
  induction l with
  | nil => simp [insertDesc]
  | cons y ys ih =>
    rw [insertDesc]
    rcases List.pairwise_cons.1 hl with ⟨hy, hys⟩
    by_cases h : key y > key x
    · rw [if_pos h]
      refine List.pairwise_cons.2 ⟨?_, ih hys⟩
      intro b hb
      rcases List.mem_cons.1 ((insertDesc_perm key x ys).mem_iff.1 hb) with rfl | hb
      · exact le_of_lt h
      · exact hy b hb
    · rw [if_neg h]
      push_neg at h
      refine List.pairwise_cons.2 ⟨?_, hl⟩
      intro b hb
      rcases List.mem_cons.1 hb with hb | hb
      · subst hb; exact h
      · exact le_trans (hy b hb) h

theorem sortByDesc_pairwise (key : α → ℚ) (l : List α) :
    (sortByDesc key l).Pairwise (fun a b => key b ≤ key a) := by
  induction l with
  | nil => exact List.Pairwise.nil
  | cons x xs ih => exact insertDesc_pairwise key x (sortByDesc key xs) ih

theorem head?_insertDesc (key : α → ℚ) (x : α) (l : List α) :
    (insertDesc key x l).head? =
      match l.head? with
      | none => some x
      | some y => if key x ≥ key y then some x else some y := by
  cases l with
  | nil => rfl
  | cons y ys =>
    rw [insertDesc]
    by_cases h : key y > key x
    · rw [if_pos h]
      simp [if_neg (not_le.2 h)]
    · rw [if_neg h]
      push_neg at h
      simp [if_pos h]

theorem head?_sortByDesc (key : α → ℚ) (l : List α) :
    (sortByDesc key l).head? = argmaxFirst key l := by
  induction l with
  | nil => rfl
  | cons x xs ih =>
    rw [sortByDesc, argmaxFirst, head?_insertDesc, ih]

theorem argmaxFirst_isSome (key : α → ℚ) (x : α) (xs : List α) :
    ∃ a, argmaxFirst key (x :: xs) = some a := by
  rw [argmaxFirst]
  cases argmaxFirst key xs with
  | none => exact ⟨x, rfl⟩
  | some y =>
    by_cases h : key x ≥ key y
    · exact ⟨x, by show (if key x ≥ key y then some x else some y) = some x; rw [if_pos h]⟩
    · exact ⟨y, by show (if key x ≥ key y then some x else some y) = some y; rw [if_neg h]⟩

/-- The first maximum is an element achieving the maximum key, and every
element strictly before it in the list has a strictly smaller key. -/
theorem argmaxFirst_spec (key : α → ℚ) (l : List α) (a : α)
    (h : argmaxFirst key l = some a) :
    ∃ l₁ l₂, l = l₁ ++ a :: l₂ ∧ (∀ b ∈ l₁, key b < key a) ∧
      ∀ b ∈ l, key b ≤ key a := by
  induction l generalizing a with
  | nil => simp [argmaxFirst] at h
  | cons x xs ih =>
    rw [argmaxFirst] at h
    cases hxs : argmaxFirst key xs with
    | none =>
      rw [hxs] at h
      have h2 : some x = some a := h
      injection h2 with h2
      subst h2
      cases xs with
      | nil =>
        refine ⟨[], [], rfl, by simp, ?_⟩
        intro b hb
        rcases List.mem_singleton.1 hb with rfl
        exact le_refl _
      | cons z zs =>
        rcases argmaxFirst_isSome key z zs with ⟨w, hw⟩
        rw [hw] at hxs
        cases hxs
    | some y =>
      rw [hxs] at h
      have h2 : (if key x ≥ key y then some x else some y) = some a := h
      by_cases hxy : key x ≥ key y
      · rw [if_pos hxy] at h2
        injection h2 with h2
        subst h2
        rcases ih y hxs with ⟨m₁, m₂, hmeq, hmlt, hmax⟩
        refine ⟨[], xs, rfl, by simp, ?_⟩
        intro b hb
        rcases List.mem_cons.1 hb with rfl | hb
        · exact le_refl _
        · exact le_trans (hmax b hb) hxy
      · rw [if_neg hxy] at h2
        injection h2 with h2
        subst h2
        push_neg at hxy
        rcases ih y hxs with ⟨l₁, l₂, heq, hlt, hmax⟩
        refine ⟨x :: l₁, l₂, by rw [heq]; rfl, ?_, ?_⟩
        · intro b hb
          rcases List.mem_cons.1 hb with rfl | hb
          · exact hxy
          · exact hlt b hb
        · intro b hb
          rcases List.mem_cons.1 hb with rfl | hb
          · exact le_of_lt hxy
          · exact hmax b hb

/-! ## Data model

Embedded from `backend/src/models/Persona.ts`, the persona service and
the test-run routes.  `EventObj` models the dynamic JS event objects: the
route `logTestRunEvent` stores `{name, timestamp, data}`, so the stored
objects carry a `name` property and *no* `type` property; since
`computeTraitScores` reads `e.type`, the model keeps both as `Option`
fields (a read of an absent property yields `none`, i.e. JS
`undefined`). -/

structure EventObj where
  name? : Option String := none
  type? : Option String := none
  timestamp : ℚ := 0
  data : String := ""
deriving DecidableEq, Repr

structure SurveyResponse where
  question : String
  answer : String
deriving DecidableEq, Repr

/-- The fixed trait-score record.  In the source this is a
`Record<string, number>` object literal whose keys are always created in
the order Analytical, Creative, Social, Practical, Confident, Cautious,
Efficient, Thorough; `TraitScores.entries` below reproduces
`Object.entries` in that insertion order. -/
structure TraitScores where
  analytical : ℚ
  creative : ℚ
  social : ℚ
  practical : ℚ
  confident : ℚ
  cautious : ℚ
  efficient : ℚ
  thorough : ℚ
deriving DecidableEq, Repr

/-- The eight fixed trait names, in object-literal insertion order. -/
def traitNames : List String :=
  ["Analytical", "Creative", "Social", "Practical",
   "Confident", "Cautious", "Efficient", "Thorough"]

/-- Models `Object.entries(scores)` for the fixed trait-score record. -/
def TraitScores.entries (s : TraitScores) : List (String × ℚ) :=
  [("Analytical", s.analytical), ("Creative", s.creative),
   ("Social", s.social), ("Practical", s.practical),
   ("Confident", s.confident), ("Cautious", s.cautious),
   ("Efficient", s.efficient), ("Thorough", s.thorough)]

structure Persona where
  id : String
  userId : String
  runId : String
  name : String
  traitScores : TraitScores
  painPoints : List String
  quotes : List String
  createdAt : ℚ
  updatedAt : ℚ
deriving DecidableEq, Repr

/-- A test run as created by the routes in `tests.ts`: `logTestRunEvent`
and `updateTestRunTranscript` create `{id, userId, events, transcript,
audioChunks, createdAt, updatedAt}`.  No route ever stores a
`surveyResponses` property on a run, so that property is an `Option`
(`none` = absent, the JS destructuring default `[]` then applies in
`buildPersona`).  Audio chunks and the string timestamps are never read
by the modelled operations and are omitted. -/
structure TestRun where
  id : String
  userId : String
  events : List EventObj
  transcript : String
  surveyResponses : Option (List SurveyResponse) := none
  finalized : Bool := false
deriving DecidableEq

/-! ## Trait scorer (`computeTraitScores`, personaService) -/

/-- Models `Math.min(Math.max(x, 0), 1)`. -/
def clamp01 (x : ℚ) : ℚ := min (max x 0) 1

/-- The initial all-zero score object literal. -/
def zeroScores : TraitScores :=
  ⟨0, 0, 0, 0, 0, 0, 0, 0⟩

/-- Models `eventCounts[t]` after `events.map(e => e.type)` and the counting
reduce: the number of events whose `type` property equals `t`.  The JS
guard `eventCounts[t] > 10` is false when the key is absent
(`undefined > 10` is `false`), which coincides with a zero count. -/
def countEventType (events : List EventObj) (t : String) : Nat :=
  (events.filter (fun e => e.type? = some t)).length

/-- The event-pattern rules of `computeTraitScores`. -/
def eventStage (events : List EventObj) (s : TraitScores) : TraitScores :=
  let s := if countEventType events "click" > 10 then
    { s with practical := s.practical + 3/10 } else s
  let s := if countEventType events "hover" > 5 then
    { s with cautious := s.cautious + 1/5 } else s
  let s := if countEventType events "scroll" > 3 then
    { s with thorough := s.thorough + 1/5 } else s
  if countEventType events "keypress" > 20 then
    { s with efficient := s.efficient + 3/10 } else s

/-- String containment helper: `a.includes(b)` on `String`s. -/
def strIncludes (a b : String) : Bool := hasSubstr a.data b.data

/-- The transcript-keyword rules of `computeTraitScores`. -/
def transcriptStage (transcript : String) (s : TraitScores) : TraitScores :=
  let tl := lowerStr transcript
  let s := if strIncludes tl "think" || strIncludes tl "analyze" then
    { s with analytical := s.analytical + 2/5 } else s
  let s := if strIncludes tl "creative" || strIncludes tl "imagine" then
    { s with creative := s.creative + 2/5 } else s
  let s := if strIncludes tl "people" || strIncludes tl "team" then
    { s with social := s.social + 2/5 } else s
  if strIncludes tl "confident" || strIncludes tl "sure" then
    { s with confident := s.confident + 3/10 } else s

/-- One iteration of the `surveyResponses.forEach` loop.  The JS guard
`response.question && response.answer` is string truthiness: both
nonempty. -/
def surveyStep (s : TraitScores) (r : SurveyResponse) : TraitScores :=
  if r.question ≠ "" ∧ r.answer ≠ "" then
    let q := lowerStr r.question
    let a := lowerStr r.answer
    let s := if strIncludes q "confidence" && strIncludes a "high" then
      { s with confident := s.confident + 1/5 } else s
    if strIncludes q "preference" && strIncludes a "creative" then
      { s with creative := s.creative + 1/5 } else s
  else s

/-- The survey-response rules of `computeTraitScores`. -/
def surveyStage (responses : List SurveyResponse) (s : TraitScores) : TraitScores :=
  responses.foldl surveyStep s

/-- The final `Object.keys(scores).forEach` clamp into `[0, 1]`. -/
def clampStage (s : TraitScores) : TraitScores :=
  ⟨clamp01 s.analytical, clamp01 s.creative, clamp01 s.social,
   clamp01 s.practical, clamp01 s.confident, clamp01 s.cautious,
   clamp01 s.efficient, clamp01 s.thorough⟩

/-- The scorer `computeTraitScores(events, transcript, surveyResponses)` from the
persona service: event rules, then transcript rules, then survey rules,
then the clamp. -/
def computeTraitScores (events : List EventObj) (transcript : String)
    (surveyResponses : List SurveyResponse) : TraitScores :=
  clampStage (surveyStage surveyResponses
    (transcriptStage transcript (eventStage events zeroScores)))

/-! ## Text extractors (`extractPainPoints`, `extractQuotes`) -/

/-- The fixed pain-keywords list (all lower-case in the source). -/
def painKeywords : List String :=
  ["frustrated", "confused", "difficult", "hard", "problem", "issue",
   String.mk ("doesn".data ++ [apostropheChar] ++ "t work".data),
   "broken", "slow", "complicated", "unclear",
   "annoying", "bothersome", "trouble", "struggle", "challenge"]

/-- Models `transcript.split(/[.!?]+/).filter(s => s.trim().length > minLen)`. -/
def sentencesOver (transcript : String) (minLen : Nat) : List (List Char) :=
  (splitSentences transcript.data).filter (fun s => (trimChars s).length > minLen)

/-- The extractor `extractPainPoints(transcript)` from the persona service: sentences
of trimmed length `> 10`; keyword test on the lower-cased raw fragment;
the trimmed, quote-stripped sentence is kept when its length is
strictly between 10 and 200; the first 3 matches are returned. -/
def extractPainPoints (transcript : String) : List String :=
  (((sentencesOver transcript 10).filter (fun s =>
      painKeywords.any (fun k => hasSubstr (lowerChars s) k.data))).filterMap
    (fun s =>
      let clean := stripQuoteEdges (trimChars s)
      if clean.length > 10 && clean.length < 200 then some (String.mk clean)
      else none)).take 3

/-- The quote-indicator keywords of `extractQuotes`. -/
def quoteKeywords : List String :=
  ["i ", "me ", "my ", "think", "feel", "like", "prefer"]

/-- The extractor `extractQuotes(transcript)` from the persona service: sentences of
trimmed length `> 15`; the trimmed, quote-stripped sentence must have
length strictly between 20 and 150 and, lower-cased, contain one of the
quote indicators; the first 5 matches are returned. -/
def extractQuotes (transcript : String) : List String :=
  ((sentencesOver transcript 15).filterMap (fun s =>
      let clean := stripQuoteEdges (trimChars s)
      if clean.length > 20 && clean.length < 150 then
        if quoteKeywords.any (fun k => hasSubstr (lowerChars clean) k.data) then
          some (String.mk clean)
        else none
      else none)).take 5

/-! ## Name generator (`generatePersonaName`) -/

/-- The fixed list of 16 first names. -/
def personaFirstNames : List String :=
  ["Alex", "Jordan", "Casey", "Taylor", "Morgan", "Riley", "Quinn", "Avery",
   "Sam", "Drew", "Blake", "Cameron", "Jamie", "Parker", "Reese", "Dakota"]

/-- The generator `generatePersonaName(traitScores)`.  The random draw
`names[Math.floor(Math.random() * names.length)]` is passed in as
`randIdx : Fin 16`.  `dominantTraits[0]?.toLowerCase() || 'balanced'`
falls back to `"balanced"` when the entry is absent or its lower-casing
is the (falsy) empty string. -/
def generatePersonaName (traitScores : TraitScores) (randIdx : Fin 16) : String :=
  let dominantTraits :=
    ((sortByDesc Prod.snd traitScores.entries).take 2).map Prod.fst
  let randomName := personaFirstNames.getD randIdx.val ""
  let traitDescriptor := match dominantTraits.head? with
    | some t => if lowerStr t = "" then "balanced" else lowerStr t
    | none => "balanced"
  randomName ++ " the " ++ traitDescriptor

/-! ## Persona store (`backend/src/models/Persona.ts`) -/

/-- The mutable state of the singleton `PersonaStore`: the `personas`
array in push order and the `nextId` counter (initially 1). -/
structure PersonaStoreState where
  personas : List Persona
  nextId : Nat
deriving DecidableEq

def PersonaStoreState.init : PersonaStoreState := ⟨[], 1⟩

/-- The `data` argument of `PersonaStore.create`
(`Omit<Persona, 'id' | 'createdAt' | 'updatedAt'>`). -/
structure PersonaCreateData where
  userId : String
  runId : String
  name : String
  traitScores : TraitScores
  painPoints : List String
  quotes : List String
deriving DecidableEq

namespace PersonaStore

/-- Store method `create(data)`: assign `nextId.toString()` as id, stamp both
timestamps with the current time (passed in as `now`), push, and
increment the counter. -/
def create (data : PersonaCreateData) (now : ℚ) (st : PersonaStoreState) :
    Persona × PersonaStoreState :=
  let persona : Persona :=
    { id := natToDecimalString st.nextId
      userId := data.userId
      runId := data.runId
      name := data.name
      traitScores := data.traitScores
      painPoints := data.painPoints
      quotes := data.quotes
      createdAt := now
      updatedAt := now }
  (persona, ⟨st.personas ++ [persona], st.nextId + 1⟩)

/-- Store method `getById(id)`: `personas.find(p => p.id === id)`. -/
def getById (id : String) (st : PersonaStoreState) : Option Persona :=
  st.personas.find? (fun p => p.id = id)

/-- Store method `getLatestByUserId(userId)`: filter by user, sort newest-first by
`createdAt`, take index 0. -/
def getLatestByUserId (userId : String) (st : PersonaStoreState) : Option Persona :=
  (sortByDesc Persona.createdAt
    (st.personas.filter (fun p => p.userId = userId))).head?

/-- Store method `getByUserId(userId)`: filter by user, sort newest-first by
`createdAt`. -/
def getByUserId (userId : String) (st : PersonaStoreState) : List Persona :=
  sortByDesc Persona.createdAt (st.personas.filter (fun p => p.userId = userId))

/-- Store method `getByRunId(runId)`: `personas.find(p => p.runId === runId)`. -/
def getByRunId (runId : String) (st : PersonaStoreState) : Option Persona :=
  st.personas.find? (fun p => p.runId = runId)

/-- The `updates` argument of `PersonaStore.update`
(`Partial<Omit<Persona, 'id' | 'createdAt'>>`); an `updatedAt` entry in
`updates` would be overwritten by the method itself and is omitted. -/
structure PersonaUpdates where
  userId : Option String := none
  runId : Option String := none
  name : Option String := none
  traitScores : Option TraitScores := none
  painPoints : Option (List String) := none
  quotes : Option (List String) := none
deriving DecidableEq

/-- Models `Object.assign(persona, updates, ...)` with a fresh `updatedAt` on a
found persona; `id` and `createdAt` cannot appear in `updates`. -/
def applyUpdates (u : PersonaUpdates) (now : ℚ) (p : Persona) : Persona :=
  { p with
    userId := u.userId.getD p.userId
    runId := u.runId.getD p.runId
    name := u.name.getD p.name
    traitScores := u.traitScores.getD p.traitScores
    painPoints := u.painPoints.getD p.painPoints
    quotes := u.quotes.getD p.quotes
    updatedAt := now }

/-- Replace the first persona with the given id by its updated copy
(JS mutates the object returned by `find` in place). -/
def updateFirst (f : Persona → Persona) (id : String) : List Persona → List Persona
  | [] => []
  | p :: ps => if p.id = id then f p :: ps else p :: updateFirst f id ps

/-- Store method `update(id, updates)`: mutate the found persona in place (or return
null, leaving the array unchanged). -/
def update (id : String) (u : PersonaUpdates) (now : ℚ) (st : PersonaStoreState) :
    Option Persona × PersonaStoreState :=
  match st.personas.find? (fun p => p.id = id) with
  | none => (none, st)
  | some p =>
    (some (applyUpdates u now p),
      ⟨updateFirst (applyUpdates u now) id st.personas, st.nextId⟩)

/-- Store method `delete(id)`: splice out the first persona with the given id;
`nextId` is untouched. -/
def deleteById (id : String) (st : PersonaStoreState) :
    Bool × PersonaStoreState :=
  match st.personas.findIdx? (fun p => p.id = id) with
  | none => (false, st)
  | some i => (true, ⟨st.personas.eraseIdx i, st.nextId⟩)

end PersonaStore

/-! ## Persona service (`services/personaService.ts`) -/

/-- The run map type: JS `Map<string, TestRun>`, viewed extensionally
(the modelled operations only `get` and `set`). -/
def RunMap : Type := String → Option TestRun

def RunMap.empty : RunMap := fun _ => none

def RunMap.get (m : RunMap) (k : String) : Option TestRun := m k

def RunMap.set (m : RunMap) (k : String) (v : TestRun) : RunMap :=
  fun k' => if k' = k then some v else m k'

/-- The persona service's module state: its own (initially empty)
`testRuns` map and the singleton persona store. -/
structure ServiceState where
  testRuns : RunMap
  personaStore : PersonaStoreState

def ServiceState.init : ServiceState :=
  ⟨RunMap.empty, PersonaStoreState.init⟩

/-- The service entry `setTestRuns(runs)` executes `Object.assign(testRuns, runs)` where
both arguments are JS `Map`s.  `Object.assign` copies own enumerable
*properties*; a `Map`'s entries live in internal slots and are not
properties, so nothing is transferred and the service's map keeps
exactly its previous entries.  The model therefore returns the current
map unchanged. -/
def setTestRuns (_runs : RunMap) (current : RunMap) : RunMap := current

/-- The success payload of `buildPersona`. -/
structure PersonaData where
  personaId : String
  persona : Persona
deriving DecidableEq

/-- The service entry `buildPersona(runId)`: look the run up in the *service's* map; throw
(`Except.error`) if absent; otherwise score, extract, name, and persist
a new persona.  The `Date` and `Math.random` draws of the call are the
`now` and `randIdx` parameters.  The returned state is the unchanged
state on error. -/
def buildPersona (runId : String) (randIdx : Fin 16) (now : ℚ)
    (st : ServiceState) : Except String PersonaData × ServiceState :=
  match st.testRuns.get runId with
  | none => (Except.error ("Test run " ++ runId ++ " not found"), st)
  | some testRun =>
    let events := testRun.events
    let transcript := testRun.transcript
    let surveyResponses := testRun.surveyResponses.getD []
    let userId := testRun.userId
    let traitScores := computeTraitScores events transcript surveyResponses
    let painPoints := extractPainPoints transcript
    let quotes := extractQuotes transcript
    let name := generatePersonaName traitScores randIdx
    let (persona, store') := PersonaStore.create
      ⟨userId, runId, name, traitScores, painPoints, quotes⟩ now st.personaStore
    (Except.ok ⟨persona.id, persona⟩, ⟨st.testRuns, store'⟩)

/-! ## Test-run routes (`routes/tests.ts`) -/

/-- Route `POST /api/tests/runs/event` (`logTestRunEvent`): validate that
`runId` and `eventName` are truthy (nonempty), get or create the run,
and push `{name: eventName, timestamp, data}` — note the stored event
has a `name` property and no `type` property.  Returns the updated
routes-module run map, or `none` on the 400 validation failure. -/
def logTestRunEvent (runId eventName : String) (timestamp : ℚ)
    (dataStr : String) (userId : String) (runs : RunMap) : Option RunMap :=
  if runId = "" ∨ eventName = "" then none
  else
    let testRun := match runs.get runId with
      | some r => r
      | none => { id := runId, userId := userId, events := [], transcript := "" }
    let testRun' := { testRun with
      events := testRun.events ++
        [{ name? := some eventName, type? := none,
           timestamp := timestamp, data := dataStr }] }
    some (runs.set runId testRun')

/-- Route `POST /api/tests/runs/transcript` (`updateTestRunTranscript`):
validate, get or create the run, append the chunk. -/
def updateTestRunTranscript (runId chunk : String) (userId : String)
    (runs : RunMap) : Option RunMap :=
  if runId = "" ∨ chunk = "" then none
  else
    let testRun := match runs.get runId with
      | some r => r
      | none => { id := runId, userId := userId, events := [], transcript := "" }
    let testRun' := { testRun with transcript := testRun.transcript ++ chunk }
    some (runs.set runId testRun')

/-- The observable outcome of `POST /api/tests/runs/finalize`. -/
inductive FinalizeOutcome where
  /-- Status 200: success, with the run and persona ids. -/
  | ok (runId personaId : String)
  /-- Status 400: missing `runId`. -/
  | badRequest
  /-- Status 404: run not found in the routes-module map. -/
  | notFound
  /-- Status 500: `buildPersona` (or anything after it) threw. -/
  | serverError
deriving DecidableEq

/-- Route handler `finalizeTestRun`: validate `runId`, look the run up in the
*routes-module* map, mark it finalized, call `setTestRuns` with the
routes map (which, per `Object.assign` on `Map`s, transfers nothing) and
then `buildPersona(runId)` against the service state.  An error from
`buildPersona` is caught and reported as a 500. -/
def finalizeTestRun (runId : String) (randIdx : Fin 16) (now : ℚ)
    (routeRuns : RunMap) (svc : ServiceState) :
    FinalizeOutcome × RunMap × ServiceState :=
  if runId = "" then (.badRequest, routeRuns, svc)
  else
    match routeRuns.get runId with
    | none => (.notFound, routeRuns, svc)
    | some testRun =>
      let testRun' := { testRun with finalized := true }
      let routeRuns' := routeRuns.set runId testRun'
      let svc' : ServiceState :=
        ⟨setTestRuns routeRuns' svc.testRuns, svc.personaStore⟩
      match buildPersona runId randIdx now svc' with
      | (Except.ok pd, svc'') => (.ok runId pd.personaId, routeRuns', svc'')
      | (Except.error _, svc'') => (.serverError, routeRuns', svc'')

/-! ## Helper lemmas for the claims -/

theorem clamp01_nonneg (x : ℚ) : 0 ≤ clamp01 x :=
  le_min (le_max_right x 0) zero_le_one

theorem clamp01_le_one (x : ℚ) : clamp01 x ≤ 1 := min_le_right _ _

theorem clamp01_le_of_le {x b : ℚ} (hb : 0 ≤ b) (h : x ≤ b) : clamp01 x ≤ b :=
  le_trans (min_le_left _ _) (max_le h hb)

/-- All eight scores lie in `[0, 1]`. -/
def TraitScores.allInUnit (s : TraitScores) : Prop :=
  (0 ≤ s.analytical ∧ s.analytical ≤ 1) ∧ (0 ≤ s.creative ∧ s.creative ≤ 1) ∧
  (0 ≤ s.social ∧ s.social ≤ 1) ∧ (0 ≤ s.practical ∧ s.practical ≤ 1) ∧
  (0 ≤ s.confident ∧ s.confident ≤ 1) ∧ (0 ≤ s.cautious ∧ s.cautious ≤ 1) ∧
  (0 ≤ s.efficient ∧ s.efficient ≤ 1) ∧ (0 ≤ s.thorough ∧ s.thorough ≤ 1)

instance (s : TraitScores) : Decidable s.allInUnit := by
  unfold TraitScores.allInUnit; infer_instance

theorem computeTraitScores_allInUnit (events : List EventObj) (transcript : String)
    (sv : List SurveyResponse) : (computeTraitScores events transcript sv).allInUnit := by
  refine ⟨⟨?_, ?_⟩, ⟨?_, ?_⟩, ⟨?_, ?_⟩, ⟨?_, ?_⟩, ⟨?_, ?_⟩, ⟨?_, ?_⟩, ⟨?_, ?_⟩, ⟨?_, ?_⟩⟩ <;>
    first
      | exact clamp01_nonneg _
      | exact clamp01_le_one _

/-- The event rules never touch `confident`. -/
theorem eventStage_confident (events : List EventObj) (s : TraitScores) :
    (eventStage events s).confident = s.confident := by
  unfold eventStage
  split_ifs <;> rfl

/-- The transcript rules add at most `0.3` to `confident`. -/
theorem transcriptStage_confident_le (transcript : String) (s : TraitScores) :
    (transcriptStage transcript s).confident ≤ s.confident + 3/10 := by
  simp only [transcriptStage]
  split_ifs <;> norm_num

/-- One survey response adds at most `0.2` to `confident`. -/
theorem surveyStep_confident_le (s : TraitScores) (r : SurveyResponse) :
    (surveyStep s r).confident ≤ s.confident + 1/5 := by
  simp only [surveyStep]
  split_ifs <;> norm_num

/-- Here `builtPersona` is the persona record that `buildPersona` constructs
for a found run, given the store counter at call time. -/
def builtPersona (runId : String) (run : TestRun) (idx : Fin 16) (now : ℚ)
    (nextId : Nat) : Persona :=
  let traitScores := computeTraitScores run.events run.transcript
    (run.surveyResponses.getD [])
  { id := natToDecimalString nextId
    userId := run.userId
    runId := runId
    name := generatePersonaName traitScores idx
    traitScores := traitScores
    painPoints := extractPainPoints run.transcript
    quotes := extractQuotes run.transcript
    createdAt := now
    updatedAt := now }

/-- Unfolding of `buildPersona` on a run that is present in the
service's map. -/
theorem buildPersona_eq_of_get {st : ServiceState} {runId : String} {run : TestRun}
    (idx : Fin 16) (now : ℚ) (h : st.testRuns.get runId = some run) :
    buildPersona runId idx now st =
      (Except.ok ⟨(builtPersona runId run idx now st.personaStore.nextId).id,
        builtPersona runId run idx now st.personaStore.nextId⟩,
       ⟨st.testRuns,
        ⟨st.personaStore.personas ++ [builtPersona runId run idx now st.personaStore.nextId],
         st.personaStore.nextId + 1⟩⟩) := by
  unfold buildPersona
  rw [h]
  rfl

/-- Consecutive counter values render to distinct id strings. -/
theorem natToDecimalString_succ_ne (n : Nat) :
    natToDecimalString n ≠ natToDecimalString (n + 1) :=
  fun h => Nat.succ_ne_self n (natToDecimalString_injective h).symm

/-! ## Concrete sample states used by the witnesses -/

/-- A run as created by the routes for run id `run1` of user `user1`. -/
def sampleRun : TestRun :=
  { id := "run1", userId := "user1", events := [], transcript := "" }

/-- A service state whose map contains `sampleRun` under `run1`. -/
def sampleSvc : ServiceState :=
  ⟨RunMap.empty.set "run1" sampleRun, PersonaStoreState.init⟩

/-- The persona that `buildPersona "run1"` builds from `sampleSvc`. -/
def samplePersona : Persona := builtPersona "run1" sampleRun 0 0 1

def samplePD : PersonaData := ⟨samplePersona.id, samplePersona⟩

def sampleSvcAfter : ServiceState :=
  ⟨sampleSvc.testRuns, ⟨[samplePersona], 2⟩⟩

/-! ## The claims -/

/-- An event as stored by `logTestRunEvent`: it has a `name` property
(`'click'`) and *no* `type` property. -/
def storedClickEvent : EventObj :=
  { name? := some "click", type? := none, timestamp := 0, data := "" }

/-- C2: for a TestRun whose events are stored by the event route as
`{name, timestamp, data}`, the scorer's click rule never fires, because
`computeTraitScores` counts `e.type`, a property the stored events do
not have.  With 11 stored click events (and an empty transcript and
survey list) the Practical score is `0`, *not* `≥ 0.3` as claimed; with
9 click events it is likewise `0` (which trivially agrees with the
claim's second half). -/
theorem C2_stored_click_events_never_fire_click_rule :
    (computeTraitScores (List.replicate 11 storedClickEvent) "" []).practical = 0 ∧
    (computeTraitScores (List.replicate 9 storedClickEvent) "" []).practical = 0 := by
  constructor <;> rfl

/-- C3: for every input — any event sequence (even events carrying a
`type` property), any transcript, any survey list — every one of the 8
trait scores produced by `computeTraitScores` lies in `[0, 1]`; and the
trait-score record stored in any persona successfully built by
`buildPersona` is the scorer's output, hence also lies in `[0, 1]`. -/
theorem C3_trait_scores_in_unit_interval (events : List EventObj)
    (transcript : String) (sv : List SurveyResponse) (runId : String)
    (idx : Fin 16) (now : ℚ) (st : ServiceState) (pd : PersonaData)
    (st' : ServiceState) :
    (computeTraitScores events transcript sv).allInUnit ∧
    (buildPersona runId idx now st = (Except.ok pd, st') →
      pd.persona.traitScores.allInUnit) := by
  refine ⟨computeTraitScores_allInUnit events transcript sv, fun h => ?_⟩
  cases hget : st.testRuns.get runId with
  | none =>
    unfold buildPersona at h
    rw [hget] at h
    exact absurd (congrArg Prod.fst h) (by simp)
  | some run =>
    rw [buildPersona_eq_of_get idx now hget] at h
    have h1 := congrArg Prod.fst h
    simp only at h1
    injection h1 with h1
    rw [← h1]
    exact computeTraitScores_allInUnit run.events run.transcript
      (run.surveyResponses.getD [])

theorem C3_trait_scores_in_unit_interval_witness :
    (computeTraitScores [] "" []).allInUnit ∧ samplePD.persona.traitScores.allInUnit :=
  ⟨(C3_trait_scores_in_unit_interval [] "" [] "run1" 0 0 sampleSvc samplePD
      sampleSvcAfter).1,
   (C3_trait_scores_in_unit_interval [] "" [] "run1" 0 0 sampleSvc samplePD
      sampleSvcAfter).2 (by rfl)⟩

/-- C4 counterexample: with transcript `"sure"` and *two* survey
responses whose question contains `confidence` and answer contains
`high`, the survey loop adds `0.2` twice and the Confident score is
`0.7 > 0.5`, refuting the claimed overall bound of `0.5`. -/
theorem C4_confident_exceeds_half :
    (computeTraitScores [] "sure"
      [⟨"confidence", "high"⟩, ⟨"confidence", "high"⟩]).confident = 7/10 ∧
    ¬ (computeTraitScores [] "sure"
      [⟨"confidence", "high"⟩, ⟨"confidence", "high"⟩]).confident ≤ 1/2 := by
  have hc : (computeTraitScores [] "sure"
      [⟨"confidence", "high"⟩, ⟨"confidence", "high"⟩]).confident =
      clamp01 (0 + 3/10 + 1/5 + 1/5) := rfl
  rw [hc]
  unfold clamp01
  constructor
  · rw [show (0: ℚ) + 3/10 + 1/5 + 1/5 = 7/10 by norm_num]
    rw [max_eq_left (by norm_num), min_eq_left (by norm_num)]
  · rw [show (0: ℚ) + 3/10 + 1/5 + 1/5 = 7/10 by norm_num]
    rw [max_eq_left (by norm_num), min_eq_left (by norm_num)]
    norm_num

/-- C4 (amended): the per-category increments are `0.3` from the
transcript and `0.2` *per matching survey response*, so the `≤ 0.5`
bound holds whenever the survey list has at most one response; the
counterexample above shows it fails with two matching responses. -/
theorem C4_confident_at_most_half (events : List EventObj)
    (transcript : String) (sv : List SurveyResponse) (h : sv.length ≤ 1) :
    (computeTraitScores events transcript sv).confident ≤ 1/2 := by
  have h0 : (eventStage events zeroScores).confident = 0 :=
    eventStage_confident events zeroScores
  have h1 : (transcriptStage transcript (eventStage events zeroScores)).confident ≤ 3/10 := by
    have := transcriptStage_confident_le transcript (eventStage events zeroScores)
    rw [h0] at this
    linarith
  have h2 : (surveyStage sv
      (transcriptStage transcript (eventStage events zeroScores))).confident ≤ 1/2 := by
    match sv, h with
    | [], _ => simpa [surveyStage] using le_trans h1 (by norm_num)
    | [r], _ =>
      have := surveyStep_confident_le
        (transcriptStage transcript (eventStage events zeroScores)) r
      simp only [surveyStage, List.foldl_cons, List.foldl_nil]
      linarith
  exact clamp01_le_of_le (by norm_num) h2

theorem C4_confident_at_most_half_witness :
    (computeTraitScores [] "sure" [⟨"confidence", "high"⟩]).confident ≤ 1/2 :=
  C4_confident_at_most_half [] "sure" [⟨"confidence", "high"⟩] (by norm_num)

/-- The pain-point extraction exactly as claim C5 words it: discard
fragments *shorter than 10* characters after trimming (i.e. keep trimmed
length `≥ 10`), keep keyword-matching sentences whose trimmed,
quote-stripped form has length *between 10 and 200 inclusive*, and
return the first 3 in transcript order. -/
def extractPainPointsClaimed (transcript : String) : List String :=
  ((((splitSentences transcript.data).filter
      (fun s => (trimChars s).length ≥ 10)).filter
      (fun s =>
        painKeywords.any (fun k => hasSubstr (lowerChars s) k.data) &&
        (10 ≤ (stripQuoteEdges (trimChars s)).length &&
         (stripQuoteEdges (trimChars s)).length ≤ 200))).map
      (fun s => String.mk (stripQuoteEdges (trimChars s)))).take 3

/-- C5 counterexample: the transcript `"hard stuff"` is a single
fragment of trimmed length exactly 10 containing the keyword `hard`.
Under the claim's thresholds it must be returned, but the code keeps
only fragments of trimmed length strictly greater than 10 and returns
the empty list. -/
theorem C5_boundary_sentence_differs :
    extractPainPoints "hard stuff" = [] ∧
    extractPainPointsClaimed "hard stuff" = ["hard stuff"] ∧
    extractPainPoints "hard stuff" ≠ extractPainPointsClaimed "hard stuff" := by
  refine ⟨rfl, rfl, ?_⟩
  intro h
  rw [show extractPainPoints "hard stuff" = [] from rfl,
    show extractPainPointsClaimed "hard stuff" = ["hard stuff"] from rfl] at h
  cases h

/-- A `filterMap` with a guarded `some` is a filter followed by a map. -/
theorem filterMap_guard_eq_filter_map (g : List Char → List Char)
    (p : List Char → Bool) (l : List (List Char)) :
    l.filterMap (fun s => if p (g s) then some (String.mk (g s)) else none) =
      (l.filter (fun s => p (g s))).map (fun s => String.mk (g s)) := by
  induction l with
  | nil => rfl
  | cons a t ih =>
    cases h : p (g a) with
    | true => simp [List.filterMap_cons, List.filter_cons, h, ih]
    | false => simp [List.filterMap_cons, List.filter_cons, h, ih]

/-- The pain-point extraction with the thresholds the code actually
uses, in the claim's declarative form: discard fragments of trimmed
length *at most 10*, keep keyword-matching sentences whose trimmed,
quote-stripped form has length *strictly between 10 and 200*, first 3
in transcript order. -/
def extractPainPointsAmendedSpec (transcript : String) : List String :=
  ((((splitSentences transcript.data).filter
      (fun s => (trimChars s).length > 10)).filter
      (fun s =>
        painKeywords.any (fun k => hasSubstr (lowerChars s) k.data) &&
        ((stripQuoteEdges (trimChars s)).length > 10 &&
         (stripQuoteEdges (trimChars s)).length < 200))).map
      (fun s => String.mk (stripQuoteEdges (trimChars s)))).take 3

/-- C5 (amended): with the discard threshold read as *at most 10* and
the clean-length window as *strictly between 10 and 200*, the code
returns exactly the first at-most-3 keyword-matching sentences in
transcript order; in particular it returns `[]` (rather than throwing —
it is a total function) when no sentence matches. -/
theorem C5_pain_points_match_amended_spec (transcript : String) :
    extractPainPoints transcript = extractPainPointsAmendedSpec transcript := by
  unfold extractPainPoints extractPainPointsAmendedSpec sentencesOver
  rw [filterMap_guard_eq_filter_map (fun s => stripQuoteEdges (trimChars s))
    (fun c => c.length > 10 && c.length < 200)]
  rw [List.filter_filter]
  refine congrArg (List.take 3) (congrArg (List.map _) (List.filter_congr ?_))
  intro a _
  cases hb1 : decide ((stripQuoteEdges (trimChars a)).length > 10) <;>
    cases hb2 : decide ((stripQuoteEdges (trimChars a)).length < 200) <;>
    cases hb3 : painKeywords.any (fun k => hasSubstr (lowerChars a) k.data) <;>
    simp [hb1, hb2, hb3]

/-- C6: `buildPersona` on a run id absent from its map throws the
not-found error and leaves the service state — in particular the
persona store and its size — unchanged. -/
theorem C6_unknown_run_leaves_store_unchanged (runId : String) (idx : Fin 16)
    (now : ℚ) (st : ServiceState) (h : st.testRuns.get runId = none) :
    (buildPersona runId idx now st).1 =
      Except.error ("Test run " ++ runId ++ " not found") ∧
    (buildPersona runId idx now st).2 = st ∧
    (buildPersona runId idx now st).2.personaStore.personas.length =
      st.personaStore.personas.length := by
  unfold buildPersona
  rw [h]
  exact ⟨rfl, rfl, rfl⟩

theorem C6_unknown_run_leaves_store_unchanged_witness :
    (buildPersona "missing" 0 0 ServiceState.init).1 =
      Except.error ("Test run " ++ "missing" ++ " not found") ∧
    (buildPersona "missing" 0 0 ServiceState.init).2 = ServiceState.init ∧
    (buildPersona "missing" 0 0 ServiceState.init).2.personaStore.personas.length =
      ServiceState.init.personaStore.personas.length :=
  C6_unknown_run_leaves_store_unchanged "missing" 0 0 ServiceState.init rfl

/-- C1: a run populated through the event route and then finalized does
*not* produce a persona: `setTestRuns` is `Object.assign` between two
`Map`s, which transfers no entries, so `buildPersona` looks the run up
in the service's still-empty map and throws its not-found error, which
`finalizeTestRun` reports as a 500; no persona is persisted.  This
contradicts the claim that `buildPersona` succeeds whenever the run
exists (it was just created and finalized in the routes store). -/
theorem C1_finalized_run_still_not_found :
    ∃ routeRuns : RunMap,
      logTestRunEvent "run1" "click" 0 "" "user1" RunMap.empty = some routeRuns ∧
      routeRuns.get "run1" =
        some { id := "run1", userId := "user1",
               events := [{ name? := some "click", type? := none,
                            timestamp := 0, data := "" }],
               transcript := "" } ∧
      (finalizeTestRun "run1" 0 0 routeRuns ServiceState.init).1 =
        FinalizeOutcome.serverError ∧
      (finalizeTestRun "run1" 0 0 routeRuns
        ServiceState.init).2.2.personaStore.personas = [] := by
  refine ⟨RunMap.empty.set "run1"
    { id := "run1", userId := "user1",
      events := [{ name? := some "click", type? := none,
                   timestamp := 0, data := "" }],
      transcript := "" }, ?_, rfl, rfl, rfl⟩
  rfl

theorem head?_take2_map (f : α → β) (l : List α) :
    ((l.take 2).map f).head? = l.head?.map f := by
  cases l <;> rfl

theorem argmaxFirst_of_ne_nil (key : α → ℚ) (l : List α) (h : l ≠ []) :
    ∃ a, argmaxFirst key l = some a := by
  cases l with
  | nil => exact absurd rfl h
  | cons x xs => exact argmaxFirst_isSome key x xs

theorem traitNames_lower_ne_empty : ∀ t ∈ traitNames, lowerStr t ≠ "" := by decide

theorem firstNames_getD_mem : ∀ i : Fin 16, personaFirstNames.getD i.val "" ∈ personaFirstNames := by
  decide

/-- C7: for every trait-score record and random index, the generated
name is exactly `"{randomName} the {topTraitLower}"`, where `randomName`
is one of the 16 fixed first names (the one at the drawn index) and the
top trait is an entry of the fixed 8-trait record achieving the maximum
score, first in insertion order among ties (every entry before it
scores strictly less). -/
theorem C7_name_is_first_max_trait (m : TraitScores) (idx : Fin 16) :
    ∃ t s l₁ l₂,
      m.entries = l₁ ++ (t, s) :: l₂ ∧
      (∀ b ∈ l₁, b.2 < s) ∧
      (∀ b ∈ m.entries, b.2 ≤ s) ∧
      t ∈ traitNames ∧
      personaFirstNames.getD idx.val "" ∈ personaFirstNames ∧
      generatePersonaName m idx =
        personaFirstNames.getD idx.val "" ++ " the " ++ lowerStr t := by
  obtain ⟨a, ha⟩ := argmaxFirst_of_ne_nil Prod.snd m.entries (by
    show ¬ (_ = ([] : List (String × ℚ)))
    rw [TraitScores.entries]
    simp)
  obtain ⟨l₁, l₂, heq, hlt, hmax⟩ := argmaxFirst_spec Prod.snd m.entries a ha
  obtain ⟨t, s⟩ := a
  have htmem : t ∈ traitNames := by
    have hmem : (t, s) ∈ m.entries := by
      rw [heq]
      exact List.mem_append.2 (Or.inr (List.mem_cons_self _ _))
    have : (t, s).1 ∈ m.entries.map Prod.fst := List.mem_map_of_mem Prod.fst hmem
    simpa [show m.entries.map Prod.fst = traitNames from rfl] using this
  refine ⟨t, s, l₁, l₂, heq, hlt, hmax, htmem, firstNames_getD_mem idx, ?_⟩
  have hhead : (((sortByDesc Prod.snd m.entries).take 2).map Prod.fst).head? = some t := by
    rw [head?_take2_map, head?_sortByDesc, ha]
    rfl
  show personaFirstNames.getD idx.val "" ++ " the " ++
      (match (((sortByDesc Prod.snd m.entries).take 2).map Prod.fst).head? with
        | some u => if lowerStr u = "" then "balanced" else lowerStr u
        | none => "balanced") =
    personaFirstNames.getD idx.val "" ++ " the " ++ lowerStr t
  rw [hhead]
  show personaFirstNames.getD idx.val "" ++ " the " ++
      (if lowerStr t = "" then "balanced" else lowerStr t) = _
  rw [if_neg (traitNames_lower_ne_empty t htmem)]

/-- C8: two successive `buildPersona` calls on the same (unmutated) run
id succeed, persist two distinct persona records (their sequential ids
differ), and derive identical trait scores, pain points and quotes — the
scoring pipeline is a pure function of the run's data. -/
theorem C8_rebuild_distinct_records_same_scores (runId : String)
    (idx₁ idx₂ : Fin 16) (t₁ t₂ : ℚ) (st : ServiceState) (run : TestRun)
    (h : st.testRuns.get runId = some run) :
    ∃ (pd₁ pd₂ : PersonaData) (st₁ st₂ : ServiceState),
      buildPersona runId idx₁ t₁ st = (Except.ok pd₁, st₁) ∧
      buildPersona runId idx₂ t₂ st₁ = (Except.ok pd₂, st₂) ∧
      pd₁.persona.id ≠ pd₂.persona.id ∧
      pd₁.persona.traitScores = pd₂.persona.traitScores ∧
      pd₁.persona.painPoints = pd₂.persona.painPoints ∧
      pd₁.persona.quotes = pd₂.persona.quotes ∧
      st₂.personaStore.personas.length = st.personaStore.personas.length + 2 := by
  refine ⟨⟨(builtPersona runId run idx₁ t₁ st.personaStore.nextId).id,
           builtPersona runId run idx₁ t₁ st.personaStore.nextId⟩,
          ⟨(builtPersona runId run idx₂ t₂ (st.personaStore.nextId + 1)).id,
           builtPersona runId run idx₂ t₂ (st.personaStore.nextId + 1)⟩,
          ⟨st.testRuns,
           ⟨st.personaStore.personas ++
              [builtPersona runId run idx₁ t₁ st.personaStore.nextId],
            st.personaStore.nextId + 1⟩⟩,
          ⟨st.testRuns,
           ⟨(st.personaStore.personas ++
              [builtPersona runId run idx₁ t₁ st.personaStore.nextId]) ++
              [builtPersona runId run idx₂ t₂ (st.personaStore.nextId + 1)],
            st.personaStore.nextId + 1 + 1⟩⟩,
          buildPersona_eq_of_get idx₁ t₁ h,
          buildPersona_eq_of_get idx₂ t₂ h,
          natToDecimalString_succ_ne st.personaStore.nextId,
          rfl, rfl, rfl, ?_⟩
  simp

theorem C8_rebuild_distinct_records_same_scores_witness :
    ∃ (pd₁ pd₂ : PersonaData) (st₁ st₂ : ServiceState),
      buildPersona "run1" 0 0 sampleSvc = (Except.ok pd₁, st₁) ∧
      buildPersona "run1" 0 0 st₁ = (Except.ok pd₂, st₂) ∧
      pd₁.persona.id ≠ pd₂.persona.id ∧
      pd₁.persona.traitScores = pd₂.persona.traitScores ∧
      pd₁.persona.painPoints = pd₂.persona.painPoints ∧
      pd₁.persona.quotes = pd₂.persona.quotes ∧
      st₂.personaStore.personas.length =
        sampleSvc.personaStore.personas.length + 2 :=
  C8_rebuild_distinct_records_same_scores "run1" 0 0 0 0 sampleSvc sampleRun rfl

/-! ## Persona-store operation traces (for the id-uniqueness claim) -/

/-- The mutating operations of `PersonaStore`. -/
inductive StoreOp where
  | create (data : PersonaCreateData) (now : ℚ)
  | update (id : String) (u : PersonaStore.PersonaUpdates) (now : ℚ)
  | del (id : String)

/-- Apply one mutating store operation, recording every created persona
in a trace of personas-ever-created. -/
def applyStoreOp : PersonaStoreState × List Persona → StoreOp →
    PersonaStoreState × List Persona
  | (st, trace), .create d now =>
    ((PersonaStore.create d now st).2, trace ++ [(PersonaStore.create d now st).1])
  | (st, trace), .update id u now => ((PersonaStore.update id u now st).2, trace)
  | (st, trace), .del id => ((PersonaStore.deleteById id st).2, trace)

/-- Run a sequence of operations against the freshly constructed store. -/
def runStoreOps (ops : List StoreOp) : PersonaStoreState × List Persona :=
  ops.foldl applyStoreOp (PersonaStoreState.init, [])

theorem update_nextId (id : String) (u : PersonaStore.PersonaUpdates) (now : ℚ)
    (st : PersonaStoreState) :
    (PersonaStore.update id u now st).2.nextId = st.nextId := by
  unfold PersonaStore.update
  cases st.personas.find? (fun p => p.id = id) <;> rfl

theorem deleteById_nextId (id : String) (st : PersonaStoreState) :
    (PersonaStore.deleteById id st).2.nextId = st.nextId := by
  unfold PersonaStore.deleteById
  cases st.personas.findIdx? (fun p => p.id = id) <;> rfl

/-- The invariant: the trace's ids are the decimal renderings of a
strictly increasing list of counter values, all below the current
counter. -/
theorem storeOps_counter_invariant (ops : List StoreOp) :
    ∀ (st : PersonaStoreState) (trace : List Persona) (ks : List Nat),
      ks.Chain' (· < ·) → trace.map Persona.id = ks.map natToDecimalString →
      (∀ k ∈ ks, k < st.nextId) →
      ∃ ks' : List Nat, ks'.Chain' (· < ·) ∧
        (ops.foldl applyStoreOp (st, trace)).2.map Persona.id =
          ks'.map natToDecimalString ∧
        ∀ k ∈ ks', k < (ops.foldl applyStoreOp (st, trace)).1.nextId := by
  induction ops with
  | nil =>
    intro st trace ks h1 h2 h3
    exact ⟨ks, h1, h2, h3⟩
  | cons op rest ih =>
    intro st trace ks h1 h2 h3
    rw [List.foldl_cons]
    cases op with
    | create d now =>
      refine ih _ _ (ks ++ [st.nextId]) ?_ ?_ ?_
      · rw [List.chain'_append]
        refine ⟨h1, List.chain'_singleton _, ?_⟩
        intro x hx y hy
        simp only [List.head?_cons, Option.mem_def, Option.some.injEq] at hy
        subst hy
        exact h3 x (List.mem_of_getLast?_eq_some (Option.mem_def.1 hx))
      · show (trace ++ [(PersonaStore.create d now st).1]).map Persona.id = _
        rw [List.map_append, List.map_append, h2]
        rfl
      · intro k hk
        show k < st.nextId + 1
        rcases List.mem_append.1 hk with hk | hk
        · exact Nat.lt_succ_of_lt (h3 k hk)
        · rcases List.mem_singleton.1 hk with rfl
          exact Nat.lt_succ_self _
    | update id u now =>
      refine ih _ _ ks h1 h2 ?_
      intro k hk
      show k < (PersonaStore.update id u now st).2.nextId
      rw [update_nextId]
      exact h3 k hk
    | del id =>
      refine ih _ _ ks h1 h2 ?_
      intro k hk
      show k < (PersonaStore.deleteById id st).2.nextId
      rw [deleteById_nextId]
      exact h3 k hk

/-- C9: along every sequence of store operations starting from the
fresh store, the ids assigned by `create` are the decimal renderings of
a strictly increasing sequence of counter values — `update` and `delete`
never touch the counter — and hence no two personas ever created share
an id. -/
theorem C9_created_ids_strictly_increasing_and_unique (ops : List StoreOp) :
    ∃ ks : List Nat, ks.Chain' (· < ·) ∧
      (runStoreOps ops).2.map Persona.id = ks.map natToDecimalString ∧
      ((runStoreOps ops).2.map Persona.id).Pairwise (· ≠ ·) := by
  obtain ⟨ks, h1, h2, h3⟩ := storeOps_counter_invariant ops PersonaStoreState.init [] []
    List.chain'_nil rfl (by simp)
  refine ⟨ks, h1, h2, ?_⟩
  show (List.map Persona.id (ops.foldl applyStoreOp (PersonaStoreState.init, [])).2).Pairwise (· ≠ ·)
  rw [h2, List.pairwise_map]
  have hp : ks.Pairwise (· < ·) := List.chain'_iff_pairwise.1 h1
  exact hp.imp fun hab he =>
    absurd (natToDecimalString_injective he) (Nat.ne_of_lt hab)

/-- JS `Array.prototype.find` returns the first element in array order
satisfying the predicate. -/
theorem find?_eq_head?_filter (p : α → Bool) (l : List α) :
    l.find? p = (l.filter p).head? := by
  induction l with
  | nil => rfl
  | cons a t ih =>
    cases h : p a with
    | true =>
      rw [List.find?_cons_of_pos _ h, List.filter_cons_of_pos h]
      rfl
    | false =>
      rw [List.find?_cons_of_neg _ (by simp [h]), List.filter_cons_of_neg (by simp [h]), ih]

/-- C10: `getByRunId` returns the first persona in insertion (array)
order among those with the given run id, while `getByUserId` returns
the user's personas newest-first by `createdAt` (a permutation of the
filtered array, non-increasing in `createdAt`), and `getLatestByUserId`
is the head of that ordering — a persona of the user with maximal
creation timestamp. -/
theorem C10_lookup_orders (st : PersonaStoreState) (runId userId : String) :
    PersonaStore.getByRunId runId st =
      (st.personas.filter (fun p => p.runId = runId)).head? ∧
    (PersonaStore.getByUserId userId st).Pairwise
      (fun a b => b.createdAt ≤ a.createdAt) ∧
    List.Perm (PersonaStore.getByUserId userId st)
      (st.personas.filter (fun p => p.userId = userId)) ∧
    PersonaStore.getLatestByUserId userId st =
      (PersonaStore.getByUserId userId st).head? ∧
    (∀ p, PersonaStore.getLatestByUserId userId st = some p →
      p ∈ st.personas ∧ p.userId = userId ∧
      ∀ q ∈ st.personas, q.userId = userId → q.createdAt ≤ p.createdAt) := by
  refine ⟨find?_eq_head?_filter _ _, sortByDesc_pairwise _ _, sortByDesc_perm _ _,
    rfl, ?_⟩
  intro p hp
  rw [PersonaStore.getLatestByUserId, head?_sortByDesc] at hp
  obtain ⟨l₁, l₂, heq, hlt, hmax⟩ := argmaxFirst_spec Persona.createdAt _ p hp
  have hpmem : p ∈ st.personas.filter (fun q => q.userId = userId) := by
    rw [heq]
    exact List.mem_append.2 (Or.inr (List.mem_cons_self _ _))
  obtain ⟨hmem, hdec⟩ := List.mem_filter.1 hpmem
  refine ⟨hmem, of_decide_eq_true hdec, ?_⟩
  intro q hq hqu
  exact hmax q (List.mem_filter.2 ⟨hq, by simp [hqu]⟩)

/-- Two personas of the same user created at times 1 and 2. -/
def personaA : Persona :=
  { id := "1", userId := "user1", runId := "runX", name := "Alex the analytical",
    traitScores := zeroScores, painPoints := [], quotes := [],
    createdAt := 1, updatedAt := 1 }

def personaB : Persona :=
  { personaA with id := "2", createdAt := 2, updatedAt := 2 }

def sampleStore2 : PersonaStoreState := ⟨[personaA, personaB], 3⟩

theorem C10_lookup_orders_witness :
    personaB ∈ sampleStore2.personas ∧ personaB.userId = "user1" ∧
    ∀ q ∈ sampleStore2.personas, q.userId = "user1" →
      q.createdAt ≤ personaB.createdAt :=
  (C10_lookup_orders sampleStore2 "runX" "user1").2.2.2.2 personaB (by rfl)
